import Mathlib

/-!
Verification development for the flow-runtime core: a shallow embedding of
the type-node hierarchy (Type.js, VoidType.js, ThisType.js,
SymbolLiteralType.js / NullableType, FunctionType, FlowIntoType) together
with the validation protocol (accepts / collectErrors / assert), the
three-way comparator (compareWith / compareTypes) and the
function-signature engine (acceptsParams / invoke), plus the generated
pattern-dispatch fixture.

JavaScript runtime values are embedded as the inductive `Value`; machine
identity of objects is modelled by explicit numeric ids, and `instanceof`
by a constructor tag on object values.  Collaborator code that is not part
of the provided sources (TypeContext.typeOf / union, NullLiteralType,
FunctionTypeParam / FunctionTypeRestParam, makeError, the primitive leaf
types) is modelled from the spec and marked as such in doc comments.
-/

namespace FlowRuntime

/-- JavaScript runtime values, as far as the core needs to distinguish
them: the two missing-value sentinels, primitives, symbols (by identity
id), functions (by identity id) and objects (constructor-function id plus
identity id, which models a one-level `instanceof` relation). -/
inductive Value where
  | undef : Value
  | vnull : Value
  | bool (b : Bool) : Value
  | num (n : Int) : Value
  | str (s : String) : Value
  | sym (sid : Nat) : Value
  | func (fid : Nat) : Value
  | obj (ctor : Nat) (oid : Nat) : Value
deriving DecidableEq

namespace Value

/-- JS loose equality with null: `input == null` holds exactly for
`null` and `undefined`. -/
def isNullish : Value → Bool
  | undef => true
  | vnull => true
  | _ => false

/-- JS truthiness: `undefined`, `null`, `false`, `0` and the empty string
are falsy; every other value is truthy. -/
def truthy : Value → Bool
  | undef => false
  | vnull => false
  | bool b => b
  | num n => n != 0
  | str s => s ≠ ""
  | sym _ => true
  | func _ => true
  | obj _ _ => true

/-- JS `typeof v === "boolean"`. -/
def isBool : Value → Bool
  | bool _ => true
  | _ => false

/-- JS `typeof v === "number"`. -/
def isNum : Value → Bool
  | num _ => true
  | _ => false

/-- JS `typeof v === "string"`. -/
def isStr : Value → Bool
  | str _ => true
  | _ => false

/-- JS `typeof v === "function"`. -/
def isFuncVal : Value → Bool
  | func _ => true
  | _ => false

/-- Plain (non-function) object test. -/
def isObj : Value → Bool
  | obj _ _ => true
  | _ => false

/-- JS `v instanceof c`: only object values are instances, of the
function value whose id matches their constructor tag. -/
def instanceOf : Value → Value → Bool
  | obj ctor _, func fid => ctor = fid
  | _, _ => false

end Value

/-- The three-way comparator result `-1 | 0 | 1` of `compareWith`. -/
inductive Cmp where
  | minusOne : Cmp
  | zero : Cmp
  | one : Cmp
deriving DecidableEq

/-- Type descriptor nodes.  `voidT`, `symbolLiteral`, `thisT`, `nullable`
and `functionT` are translated from the provided sources; `nullLiteral`,
the primitive leaves `booleanT`/`numberT`/`stringT`/`objectT`, `anyT`,
`emptyT` and `unionT` are collaborator types referenced by the sources and
are modelled from the spec (data model of §3, TypeContext of §4.5).
A function parameter is a pair of its declared type and its `optional`
flag; the rest slot stores the rest parameter's element type.
`thisT` stores the captured `recorded` value, `Value.undef` when nothing
has been captured (the unset optional field in the source). -/
inductive Ty where
  | voidT : Ty
  | nullLiteral : Ty
  | booleanT : Ty
  | numberT : Ty
  | stringT : Ty
  | objectT : Ty
  | symbolLiteral (sid : Nat) : Ty
  | thisT (recorded : Value) : Ty
  | nullable (inner : Ty) : Ty
  | anyT : Ty
  | emptyT : Ty
  | unionT (left right : Ty) : Ty
  | functionT (params : List (Ty × Bool)) (rest : Option Ty) (ret : Ty) : Ty

namespace Ty

/-- Discriminator for `input instanceof FunctionType`. -/
def isFunctionTy : Ty → Bool
  | functionT _ _ _ => true
  | _ => false

/-- Discriminator for `input instanceof NullableType`. -/
def isNullableTy : Ty → Bool
  | nullable _ => true
  | _ => false

/-- Discriminator for `input instanceof NullLiteralType`. -/
def isNullLiteralTy : Ty → Bool
  | nullLiteral => true
  | _ => false

/-- Discriminator for `input instanceof VoidType`. -/
def isVoidTy : Ty → Bool
  | voidT => true
  | _ => false

/-- Discriminator for the interned AnyType / ExistentialType singletons:
the source tests `bound.typeName` against those names; the model's only
auto-satisfied universal bound is `anyT`. -/
def isAnyTy : Ty → Bool
  | anyT => true
  | _ => false

/-- Discriminator for the interned EmptyType no-match sentinel returned
by `context.empty()`. -/
def isEmptyTy : Ty → Bool
  | emptyT => true
  | _ => false

end Ty

open Value Ty

/-- The `accepts(input)` protocol operation, variant by variant.
`voidT` is VoidType.accepts (`input === undefined`); `symbolLiteral` is
SymbolLiteralType.accepts (`input === this.value`); `thisT` is
ThisType.accepts (identity, then instanceof when the captured value is a
function, then reject when something is captured, else permit);
`nullable` is NullableType.accepts (`input == null` or inner).
For `functionT` the model's values carry no attached signature, so the
source's unannotated branch applies: any function value is conservatively
accepted.  `nullLiteral` (accepts exactly null), the primitive leaves,
`anyT` (accepts everything), `emptyT` (accepts nothing) and `unionT`
(accepts when either member accepts) are modelled from the spec. -/
def accepts : Ty → Value → Bool
  | voidT, v => v = Value.undef
  | nullLiteral, v => v = Value.vnull
  | booleanT, v => v.isBool
  | numberT, v => v.isNum
  | stringT, v => v.isStr
  | objectT, v => v.isObj
  | symbolLiteral sid, v => v = Value.sym sid
  | thisT recd, v =>
      if v = recd then true
      else if recd.isFuncVal && v.instanceOf recd then true
      else if ¬(recd = Value.undef ∨ recd = Value.vnull) then false
      else true
  | nullable t, v => if v.isNullish then true else accepts t v
  | anyT, _ => true
  | emptyT, _ => false
  | unionT l r, v => accepts l v || accepts r v
  | functionT _ _ _, v => v.isFuncVal

mutual

/-- The three-way comparator.  The free function `compareTypes(a, b)` of
the sources is modelled from the spec as dispatching to `a.compareWith(b)`;
the match arms below are, variant by variant, each class's `compareWith`.
`voidT` is VoidType.compareWith (0 against another Void, else -1);
`symbolLiteral` is SymbolLiteralType.compareWith (0 against the same
exact value, else -1); `thisT` is ThisType.compareWith (identity of the
captured values, with JS truthiness guards); `nullable` is
NullableType.compareWith (1 against NullLiteral/Void, inner comparison
against another Nullable, otherwise the inner result with non-negative
promoted to 1); `functionT` is FunctionType.compareWith (return types
first, then arity, then the positional parameter loop).  Parameter and
return descriptors are compared by their underlying types
(FunctionTypeParam / FunctionTypeReturn are outside the provided sources
and are modelled from the spec's "compare parameters positionally").
The remaining variants are collaborators modelled from the spec: the
primitive leaves and `emptyT` are 0 against their own kind and -1
otherwise (reflexivity, §8), `anyT` accepts a superset of everything so
ranks 1, and `unionT` ranks 1 against anything one of its members does
not rank -1 against, else -1 (§4.5 gives unions only accepts-superset
semantics). -/
def compareTypes : Ty → Ty → Cmp
  | voidT, voidT => Cmp.zero
  | voidT, _ => Cmp.minusOne
  | nullLiteral, nullLiteral => Cmp.zero
  | nullLiteral, _ => Cmp.minusOne
  | booleanT, booleanT => Cmp.zero
  | booleanT, _ => Cmp.minusOne
  | numberT, numberT => Cmp.zero
  | numberT, _ => Cmp.minusOne
  | stringT, stringT => Cmp.zero
  | stringT, _ => Cmp.minusOne
  | objectT, objectT => Cmp.zero
  | objectT, _ => Cmp.minusOne
  | symbolLiteral a, symbolLiteral b => if b = a then Cmp.zero else Cmp.minusOne
  | symbolLiteral _, _ => Cmp.minusOne
  | thisT a, thisT b =>
      if b.truthy && a.truthy then (if b = a then Cmp.zero else Cmp.minusOne)
      else if a.truthy then Cmp.zero
      else Cmp.one
  | thisT _, _ => Cmp.minusOne
  | nullable _, nullLiteral => Cmp.one
  | nullable _, voidT => Cmp.one
  | nullable t, nullable u => compareTypes t u
  | nullable t, u =>
      if compareTypes t u = Cmp.minusOne then Cmp.minusOne else Cmp.one
  | anyT, _ => Cmp.one
  | emptyT, emptyT => Cmp.zero
  | emptyT, _ => Cmp.minusOne
  | unionT l r, u =>
      if !(compareTypes l u = Cmp.minusOne) || !(compareTypes r u = Cmp.minusOne)
      then Cmp.one else Cmp.minusOne
  | functionT ps _ ret, functionT qs _ qret =>
      let retCmp := compareTypes ret qret
      if retCmp = Cmp.minusOne then Cmp.minusOne
      else if qs.length < ps.length then Cmp.minusOne
      else compareParamsLoop (decide (retCmp = Cmp.one)) ps qs
  | functionT _ _ _, _ => Cmp.minusOne

/-- The positional parameter loop of FunctionType.compareWith, with the
`isGreater` flag threaded: the first per-parameter -1 is fatal, any 1
raises the flag, and an exhausted loop yields 1 or 0 by the flag.  The
source reaches the loop only after checking the input declares at least
as many parameters, so the arm for a too-short input list is unreachable
there; it conservatively yields -1 like the length check. -/
def compareParamsLoop (isGreater : Bool) : List (Ty × Bool) → List (Ty × Bool) → Cmp
  | [], _ => if isGreater then Cmp.one else Cmp.zero
  | p :: ps, q :: qs =>
      match compareTypes p.1 q.1 with
      | Cmp.minusOne => Cmp.minusOne
      | Cmp.one => compareParamsLoop true ps qs
      | Cmp.zero => compareParamsLoop isGreater ps qs
  | _ :: _, [] => Cmp.minusOne

end

/-- Type.acceptsType, translated from the base class: false exactly when
`compareTypes(this, input)` is -1, true otherwise.  No provided source
overrides it. -/
def acceptsType (a b : Ty) : Bool :=
  if compareTypes a b = Cmp.minusOne then false else true

/-- One structured record appended by `validation.addError(path, type,
message)`: the identifier path and the message key produced by
`getErrorMessage`. -/
structure Entry where
  path : List String
  msg : String
deriving DecidableEq

/-- The `collectErrors(validation, path, input)` protocol operation: the
validation is an ordered record list the operation only appends to, and
the returned flag says whether it appended.  `voidT` is
VoidType.collectErrors, `symbolLiteral` is
SymbolLiteralType.collectErrors, `thisT` is ThisType.collectErrors,
`nullable` is NullableType.collectErrors, and `functionT` is
FunctionType.collectErrors in the unannotated-values model (a
non-function input records ERR_EXPECT_FUNCTION; a function input carries
no attached signature, so the source's unannotated branch records
nothing).  The collaborator variants are modelled from the spec,
mirroring their modelled `accepts`. -/
def collectErrors : Ty → List Entry → List String → Value → Bool × List Entry
  | voidT, validation, path, v =>
      if v = Value.undef then (false, validation)
      else (true, validation ++ [⟨path, "ERR_EXPECT_VOID"⟩])
  | nullLiteral, validation, path, v =>
      if v = Value.vnull then (false, validation)
      else (true, validation ++ [⟨path, "ERR_EXPECT_NULL"⟩])
  | booleanT, validation, path, v =>
      if v.isBool then (false, validation)
      else (true, validation ++ [⟨path, "ERR_EXPECT_BOOLEAN"⟩])
  | numberT, validation, path, v =>
      if v.isNum then (false, validation)
      else (true, validation ++ [⟨path, "ERR_EXPECT_NUMBER"⟩])
  | stringT, validation, path, v =>
      if v.isStr then (false, validation)
      else (true, validation ++ [⟨path, "ERR_EXPECT_STRING"⟩])
  | objectT, validation, path, v =>
      if v.isObj then (false, validation)
      else (true, validation ++ [⟨path, "ERR_EXPECT_OBJECT"⟩])
  | symbolLiteral sid, validation, path, v =>
      if v = Value.sym sid then (false, validation)
      else (true, validation ++ [⟨path, "ERR_EXPECT_EXACT_VALUE"⟩])
  | thisT recd, validation, path, v =>
      if v = recd then (false, validation)
      else if recd.isFuncVal && v.instanceOf recd then (false, validation)
      else if ¬(recd = Value.undef ∨ recd = Value.vnull) then
        (true, validation ++ [⟨path, "ERR_EXPECT_THIS"⟩])
      else (false, validation)
  | nullable t, validation, path, v =>
      if v.isNullish then (false, validation)
      else collectErrors t validation path v
  | anyT, validation, _, _ => (false, validation)
  | emptyT, validation, path, _ =>
      (true, validation ++ [⟨path, "ERR_EXPECT_EMPTY"⟩])
  | unionT l r, validation, path, v =>
      if accepts l v || accepts r v then (false, validation)
      else (true, validation ++ [⟨path, "ERR_EXPECT_UNION"⟩])
  | functionT _ _ _, validation, path, v =>
      if ¬v.isFuncVal then (true, validation ++ [⟨path, "ERR_EXPECT_FUNCTION"⟩])
      else (false, validation)

/-- Modelled from the spec: `makeError(type, input)` (outside the
provided sources) runs `collectErrors` on a fresh validation at the root
path and, when any error was recorded, produces a type-mismatch error
carrying the first recorded message. -/
def makeError (t : Ty) (input : Value) : Option String :=
  let result := collectErrors t [] [] input
  (result.2.head?).map Entry.msg

/-- Type.assert, translated from the base class: builds the error via
`makeError` and raises it when present, otherwise returns the input
unchanged.  Raising is embedded as `Except.error`. -/
def tyAssert (t : Ty) (input : Value) : Except String Value :=
  match makeError t input with
  | some m => Except.error m
  | none => Except.ok input

/-- Base Type.collectErrors: returns false and leaves the validation
untouched for every input. -/
def baseCollectErrors (validation : List Entry) (path : List String) (input : Value) :
    Bool × List Entry :=
  let _ := path
  let _ := input
  (false, validation)

/-- Base Type.accepts: the unimplemented placeholder, which throws
`Error('Not implemented.')`; embedded as `Except.error`. -/
def baseAccepts (input : Value) : Except String Bool :=
  let _ := input
  Except.error "Not implemented."

/-- Base Type.compareWith: the unimplemented placeholder, which throws
`Error('Not implemented.')`; embedded as `Except.error`. -/
def baseCompareWith (input : Ty) : Except String Cmp :=
  let _ := input
  Except.error "Not implemented."

/-- Modelled from the spec: FunctionTypeParam.accepts (outside the
provided sources) permits the missing value for an optional parameter and
otherwise defers to the declared type ("possibly optional parameters;
absent trailing ones checked against the missing-value sentinel"). -/
def paramAccepts (p : Ty × Bool) (v : Value) : Bool :=
  (p.2 && v.isNullish) || accepts p.1 v

/-- Modelled from the spec: FunctionTypeParam.acceptsType (outside the
provided sources) is the base-class derivation applied to the declared
parameter type. -/
def paramAcceptsType (p : Ty × Bool) (t : Ty) : Bool :=
  acceptsType p.1 t

/-- The positional loop shared by FunctionType.acceptsParams: each
declared parameter checks the argument at its index, or the missing-value
sentinel `undefined` when the argument list has run out. -/
def acceptsParamsLoop : List (Ty × Bool) → List Value → Bool
  | [], _ => true
  | p :: ps, [] => paramAccepts p Value.undef && acceptsParamsLoop ps []
  | p :: ps, a :: args => paramAccepts p a && acceptsParamsLoop ps args

/-- The excess-argument step shared (textually) by acceptsParams and
invoke: only when there are more arguments than declared parameters and
a rest parameter exists, each excess argument is checked against the
rest's element type through the given per-argument check
(FunctionTypeRestParam, outside the provided sources, is modelled from
the spec as checking one argument against the rest element type). -/
def restCheck {α : Type} (restp : Option Ty) (f : Ty → α → Bool) (xs : List α)
    (n : Nat) : Bool :=
  if xs.length > n then
    match restp with
    | some r => (xs.drop n).all (f r)
    | none => true
  else true

/-- FunctionType.acceptsParams: the positional loop over the declared
parameters, then the excess-argument step with the rest's value-level
accepts. -/
def acceptsParams (ps : List (Ty × Bool)) (restp : Option Ty) (args : List Value) : Bool :=
  acceptsParamsLoop ps args && restCheck restp accepts args ps.length

/-- The positional loop of FunctionType.invoke: a supplied argument type
checks via `acceptsType` against the declared parameter, a missing
trailing argument via `param.accepts(undefined)`. -/
def invokeLoop : List (Ty × Bool) → List Ty → Bool
  | [], _ => true
  | p :: ps, [] => paramAccepts p Value.undef && invokeLoop ps []
  | p :: ps, a :: args => paramAcceptsType p a && invokeLoop ps args

/-- FunctionType.invoke: the type-level counterpart of acceptsParams
over supplied argument types; on any failed check it returns the
`context.empty()` no-match sentinel, otherwise the declared return
type. -/
def invoke (ps : List (Ty × Bool)) (restp : Option Ty) (ret : Ty) (args : List Ty) : Ty :=
  if invokeLoop ps args && restCheck restp acceptsType args ps.length
  then ret
  else emptyT

/-- Modelled from the spec: TypeContext.typeOf (outside the provided
sources) classifies a raw value into the narrowest matching leaf
descriptor of the model.  A symbol classifies to its exact literal; a
function value, carrying no signature in this model, classifies to the
unconstrained signature over the universal type. -/
def typeOf : Value → Ty
  | Value.undef => voidT
  | Value.vnull => nullLiteral
  | Value.bool _ => booleanT
  | Value.num _ => numberT
  | Value.str _ => stringT
  | Value.sym sid => symbolLiteral sid
  | Value.func _ => functionT [] none anyT
  | Value.obj _ _ => objectT

/-- The mutable state of one TypeParameter: the optional static `bound`
and the mutable `recorded` type.  A slot whose bound is a FlowIntoType
chained to another open slot defers entirely to that slot in the source;
the model represents such a chain by using the target slot directly, so
`bound` here is always a plain descriptor. -/
structure TypeParamState where
  bound : Option Ty
  recorded : Option Ty

/-- FlowIntoType.accepts, with the type parameter's mutable `recorded`
threaded explicitly: when a type is already recorded, a bound violation
fails with no change, an input the recorded type permits succeeds with no
change, and any other input widens `recorded` to the union with the
input's type and succeeds; when nothing is recorded, an auto-satisfied
universal bound succeeds without recording, a violated bound fails, and
otherwise the input's type is recorded verbatim. -/
def flowIntoAccepts (s : TypeParamState) (input : Value) : Bool × TypeParamState :=
  match s.recorded with
  | some recd =>
      match s.bound with
      | some b =>
          if ¬accepts b input then (false, s)
          else if accepts recd input then (true, s)
          else (true, { s with recorded := some (unionT recd (typeOf input)) })
      | none =>
          if accepts recd input then (true, s)
          else (true, { s with recorded := some (unionT recd (typeOf input)) })
  | none =>
      match s.bound with
      | some b =>
          if b.isAnyTy then (true, s)
          else if ¬accepts b input then (false, s)
          else (true, { s with recorded := some (typeOf input) })
      | none => (true, { s with recorded := some (typeOf input) })

/-- FlowIntoType.collectErrors, threading both the validation record list
and the slot state; it follows the same shared algorithm as
`flowIntoAccepts`, but consults the bound through its diagnostic
operation. -/
def flowIntoCollectErrors (s : TypeParamState) (validation : List Entry)
    (path : List String) (input : Value) : Bool × List Entry × TypeParamState :=
  match s.recorded with
  | some recd =>
      match s.bound with
      | some b =>
          let result := collectErrors b validation path input
          if result.1 then (true, result.2, s)
          else if accepts recd input then (false, result.2, s)
          else (false, result.2, { s with recorded := some (unionT recd (typeOf input)) })
      | none =>
          if accepts recd input then (false, validation, s)
          else (false, validation, { s with recorded := some (unionT recd (typeOf input)) })
  | none =>
      match s.bound with
      | some b =>
          if b.isAnyTy then (false, validation, s)
          else
            let result := collectErrors b validation path input
            if result.1 then (true, result.2, s)
            else (false, result.2, { s with recorded := some (typeOf input) })
      | none => (false, validation, { s with recorded := some (typeOf input) })

/-- One candidate signature of the dispatch generator: declared
parameters, optional rest element type, return type. -/
structure Candidate where
  params : List (Ty × Bool)
  restp : Option Ty
  ret : Ty

/-- The dispatch caller's selection loop: candidates are tried in the
order given, each through FunctionType.invoke on the supplied argument
types, and the first whose result is not the no-match sentinel is
selected, returning its position and return type. -/
def selectFirstMatchAux (i : Nat) (cands : List Candidate) (args : List Ty) :
    Option (Nat × Ty) :=
  match cands with
  | [] => none
  | c :: cs =>
      let r := invoke c.params c.restp c.ret args
      if r.isEmptyTy then selectFirstMatchAux (i + 1) cs args
      else some (i, r)

/-- Selection over a candidate list starting at position 0. -/
def selectFirstMatch (cands : List Candidate) (args : List Ty) : Option (Nat × Ty) :=
  selectFirstMatchAux 0 cands args

/-- The generated dispatch of the pattern-match fixture (the `expected`
constant): guards are evaluated in the declared candidate order over the
first argument and the collected rest array, and the position of the
selected candidate is returned.  `t.array(T).accepts(xs)` is modelled
from the spec as an every-element check; `typeof xs[i]` reads the
missing-value sentinel past the end of the array. -/
def patternExpected (arg0 : Value) (restArgs : List Value) : Nat :=
  if arg0.isStr then 0
  else if arg0.isStr && (restArgs.getD 0 Value.undef).isNum &&
          (restArgs.drop 1).all (accepts booleanT) then 1
  else if arg0.isStr && restArgs.all (accepts numberT) then 2
  else if arg0.isStr && (restArgs.getD 0 Value.undef).isStr &&
          (restArgs.getD 1 Value.undef).isStr && (restArgs.getD 2 Value.undef).isStr then 3
  else 4

/-! Helper lemmas. -/

/-- A ThisType that has captured nothing (or the explicit null) accepts
every value. -/
theorem accepts_thisT_unset (r : Value) (h : r = Value.undef ∨ r = Value.vnull) (v : Value) :
    accepts (thisT r) v = true := by
  rcases h with h | h <;> subst h <;>
    simp only [accepts] <;> split <;> simp_all

/-- The diagnostic flag of `collectErrors` agrees with `accepts`, the
validation is only appended to, and exactly one record is appended on
failure. -/
theorem collectErrors_spec : (t : Ty) → (validation : List Entry) → (path : List String) →
    (v : Value) →
    ∃ extra, collectErrors t validation path v = ((!accepts t v), validation ++ extra) ∧
      (accepts t v = true → extra = []) ∧ (accepts t v = false → ∃ e, extra = [e])
  | nullable inner, validation, path, v => by
      by_cases hv : v.isNullish = true
      · exact ⟨[], by simp [collectErrors, accepts, hv]⟩
      · obtain ⟨extra, h1, h2, h3⟩ := collectErrors_spec inner validation path v
        simp only [Bool.not_eq_true] at hv
        have ha : accepts (nullable inner) v = accepts inner v := by simp [accepts, hv]
        refine ⟨extra, ?_, ?_, ?_⟩
        · rw [ha]; simp [collectErrors, hv, h1]
        · rw [ha]; exact h2
        · rw [ha]; exact h3
  | thisT recd, validation, path, v => by
      simp only [collectErrors, accepts]
      split
      · exact ⟨[], by simp⟩
      · split
        · exact ⟨[], by simp⟩
        · split
          · exact ⟨[⟨path, "ERR_EXPECT_THIS"⟩], by simp⟩
          · exact ⟨[], by simp⟩
  | functionT ps restp ret, validation, path, v => by
      by_cases hv : v.isFuncVal = true
      · exact ⟨[], by simp [collectErrors, accepts, hv]⟩
      · simp only [Bool.not_eq_true] at hv
        exact ⟨[⟨path, "ERR_EXPECT_FUNCTION"⟩], by simp [collectErrors, accepts, hv]⟩
  | unionT l r, validation, path, v => by
      by_cases hv : (accepts l v || accepts r v) = true
      · exact ⟨[], by simp [collectErrors, accepts, hv]⟩
      · exact ⟨[⟨path, "ERR_EXPECT_UNION"⟩], by
          simp only [Bool.not_eq_true] at hv
          simp [collectErrors, accepts, hv]⟩
  | voidT, validation, path, v => by
      by_cases hv : v = Value.undef
      · exact ⟨[], by simp [collectErrors, accepts, hv]⟩
      · exact ⟨[⟨path, "ERR_EXPECT_VOID"⟩], by simp [collectErrors, accepts, hv]⟩
  | nullLiteral, validation, path, v => by
      by_cases hv : v = Value.vnull
      · exact ⟨[], by simp [collectErrors, accepts, hv]⟩
      · exact ⟨[⟨path, "ERR_EXPECT_NULL"⟩], by simp [collectErrors, accepts, hv]⟩
  | booleanT, validation, path, v => by
      by_cases hv : v.isBool = true
      · exact ⟨[], by simp [collectErrors, accepts, hv]⟩
      · simp only [Bool.not_eq_true] at hv
        exact ⟨[⟨path, "ERR_EXPECT_BOOLEAN"⟩], by simp [collectErrors, accepts, hv]⟩
  | numberT, validation, path, v => by
      by_cases hv : v.isNum = true
      · exact ⟨[], by simp [collectErrors, accepts, hv]⟩
      · simp only [Bool.not_eq_true] at hv
        exact ⟨[⟨path, "ERR_EXPECT_NUMBER"⟩], by simp [collectErrors, accepts, hv]⟩
  | stringT, validation, path, v => by
      by_cases hv : v.isStr = true
      · exact ⟨[], by simp [collectErrors, accepts, hv]⟩
      · simp only [Bool.not_eq_true] at hv
        exact ⟨[⟨path, "ERR_EXPECT_STRING"⟩], by simp [collectErrors, accepts, hv]⟩
  | objectT, validation, path, v => by
      by_cases hv : v.isObj = true
      · exact ⟨[], by simp [collectErrors, accepts, hv]⟩
      · simp only [Bool.not_eq_true] at hv
        exact ⟨[⟨path, "ERR_EXPECT_OBJECT"⟩], by simp [collectErrors, accepts, hv]⟩
  | symbolLiteral sid, validation, path, v => by
      by_cases hv : v = Value.sym sid
      · exact ⟨[], by simp [collectErrors, accepts, hv]⟩
      · exact ⟨[⟨path, "ERR_EXPECT_EXACT_VALUE"⟩], by simp [collectErrors, accepts, hv]⟩
  | anyT, validation, path, v => ⟨[], by simp [collectErrors, accepts]⟩
  | emptyT, validation, path, v => ⟨[⟨path, "ERR_EXPECT_EMPTY"⟩], by simp [collectErrors, accepts]⟩

/-! Claim theorems. -/

/-- C6: for every type T, NullableType(T).accepts returns true on both
missing-value sentinels (the absent `undefined` and the explicit `null`),
and on any other input it returns exactly what T.accepts returns. -/
theorem c6_nullable_accepts (t : Ty) :
    accepts (nullable t) Value.undef = true ∧
    accepts (nullable t) Value.vnull = true ∧
    ∀ v : Value, v.isNullish = false → accepts (nullable t) v = accepts t v := by
  refine ⟨by simp [accepts, Value.isNullish], by simp [accepts, Value.isNullish], ?_⟩
  intro v hv
  simp [accepts, hv]

/-- C6 witness: at T = stringT and the non-missing input 3, the theorem
applies and the nullable wrapper defers to the inner type. -/
theorem c6_nullable_accepts_witness :
    (Value.num 3).isNullish = false ∧
    accepts (nullable stringT) (Value.num 3) = accepts stringT (Value.num 3) :=
  ⟨by decide, (c6_nullable_accepts stringT).2.2 (Value.num 3) (by decide)⟩

/-- C7: NullableType(T).compareWith(U), for U neither a NullableType nor
a NullLiteralType nor a VoidType, returns -1 exactly when compare(T, U)
is -1 and returns 1 otherwise, and in particular never returns 0. -/
theorem c7_nullable_compare (t u : Ty) (h1 : u.isNullableTy = false)
    (h2 : u.isNullLiteralTy = false) (h3 : u.isVoidTy = false) :
    compareTypes (nullable t) u =
      (if compareTypes t u = Cmp.minusOne then Cmp.minusOne else Cmp.one) ∧
    compareTypes (nullable t) u ≠ Cmp.zero := by
  have key : compareTypes (nullable t) u =
      (if compareTypes t u = Cmp.minusOne then Cmp.minusOne else Cmp.one) := by
    cases u <;> simp_all [Ty.isNullableTy, Ty.isNullLiteralTy, Ty.isVoidTy, compareTypes]
  refine ⟨key, ?_⟩
  rw [key]
  split <;> simp

/-- C7 witness: at T = stringT, U = numberT the inner comparison is -1
and the nullable wrapper reports -1. -/
theorem c7_nullable_compare_witness :
    Ty.isNullableTy numberT = false ∧ Ty.isNullLiteralTy numberT = false ∧
    Ty.isVoidTy numberT = false ∧
    compareTypes (nullable stringT) numberT =
      (if compareTypes stringT numberT = Cmp.minusOne then Cmp.minusOne else Cmp.one) :=
  ⟨rfl, rfl, rfl, (c7_nullable_compare stringT numberT rfl rfl rfl).1⟩

/-- C8: for every pair of type nodes A and B, A.acceptsType(B) returns
false exactly when comparing A with B yields -1, and returns true when
the comparison yields 0 or 1. -/
theorem c8_acceptsType (a b : Ty) :
    (acceptsType a b = false ↔ compareTypes a b = Cmp.minusOne) ∧
    ((compareTypes a b = Cmp.zero ∨ compareTypes a b = Cmp.one) → acceptsType a b = true) := by
  unfold acceptsType
  constructor
  · split <;> simp_all
  · intro h
    rcases h with h | h <;> simp [h]

/-- C8 witness: at A = B = voidT the comparison yields 0 and acceptsType
is true. -/
theorem c8_acceptsType_witness :
    (compareTypes voidT voidT = Cmp.zero ∨ compareTypes voidT voidT = Cmp.one) ∧
    acceptsType voidT voidT = true :=
  ⟨Or.inl rfl, (c8_acceptsType voidT voidT).2 (Or.inl rfl)⟩

/-- C10: the base Type's collectErrors returns false and records no
error for every input, while the base accepts and compareWith throw the
`Not implemented.` error. -/
theorem c10_base_protocol (validation : List Entry) (path : List String) (v : Value) (t : Ty) :
    baseCollectErrors validation path v = (false, validation) ∧
    baseAccepts v = Except.error "Not implemented." ∧
    baseCompareWith t = Except.error "Not implemented." :=
  ⟨rfl, rfl, rfl⟩

/-- C1 counterexample: the one-parameter signature `(string) -> string`
has no rest parameter, yet `acceptsParams("x", 1)` — two positional
arguments against one declared parameter — returns true instead of
rejecting, and `invoke(string, number)` likewise matches and returns the
return type instead of the no-match sentinel. -/
theorem c1_counterexample :
    acceptsParams [(stringT, false)] none [Value.str "x", Value.num 1] = true ∧
    invoke [(stringT, false)] none stringT [stringT, numberT] = stringT :=
  ⟨rfl, rfl⟩

/-- C2 counterexample: the generated dispatch of the fixture, called
with four string arguments, selects candidate 0 — the one-parameter
`(string) -> string` — and not candidate 3, the four-string-parameter
signature, because the branch guards run in declaration order and the
one-parameter guard places no bound on excess arguments. -/
theorem c2_counterexample :
    patternExpected (Value.str "w") [Value.str "x", Value.str "y", Value.str "z"] = 0 ∧
    patternExpected (Value.str "w") [Value.str "x", Value.str "y", Value.str "z"] ≠ 3 :=
  ⟨rfl, by decide⟩

/-- C3 counterexample: the ThisType with nothing captured compared with
the ThisType capturing the explicit null yields 1, yet no value is
accepted by the first and rejected by the second — both accept every
value — refuting the witness property for the ThisType-vs-ThisType
pairing. -/
theorem c3_counterexample :
    compareTypes (thisT Value.undef) (thisT Value.vnull) = Cmp.one ∧
    ¬∃ v : Value, accepts (thisT Value.undef) v = true ∧ accepts (thisT Value.vnull) v = false := by
  refine ⟨rfl, ?_⟩
  rintro ⟨v, -, h2⟩
  rw [accepts_thisT_unset Value.vnull (Or.inr rfl) v] at h2
  exact absurd h2 (by simp)

/-- C3 amended: the comparator's witness property fails for
ThisType-vs-ThisType pairings (see the counterexample); it does hold for
the NullableType-vs-VoidType and NullableType-vs-NullLiteralType
pairings, where compareWith returns 1 and a missing-value sentinel is a
value accepted by the nullable type and rejected by the other. -/
theorem c3_amended (t u : Ty) (h : u = voidT ∨ u = nullLiteral) :
    compareTypes (nullable t) u = Cmp.one ∧
    ∃ v : Value, accepts (nullable t) v = true ∧ accepts u v = false := by
  rcases h with h | h <;> subst h
  · exact ⟨rfl, Value.vnull, by simp [accepts, Value.isNullish], rfl⟩
  · exact ⟨rfl, Value.undef, by simp [accepts, Value.isNullish], rfl⟩

/-- C3 amended witness: at T = stringT against VoidType the theorem
applies, the ranking is 1 and the explicit null is the separating
value. -/
theorem c3_amended_witness :
    (voidT = voidT ∨ voidT = nullLiteral) ∧
    (compareTypes (nullable stringT) voidT = Cmp.one ∧
     ∃ v : Value, accepts (nullable stringT) v = true ∧ accepts voidT v = false) :=
  ⟨Or.inl rfl, c3_amended stringT voidT (Or.inl rfl)⟩

/-- C2 amended: given the candidates `(string) -> string` and
`(string, string, string, string) -> string` in declaration order, a
call with four string arguments selects the one-parameter candidate,
never the four-parameter one: candidates are tried in declaration order,
and a signature without a rest parameter also matches calls with excess
arguments, so the broader one-parameter candidate shadows the
four-parameter one.  The generated dispatch of the fixture agrees,
selecting branch 0 rather than branch 3. -/
theorem c2_amended :
    selectFirstMatch
        [⟨[(stringT, false)], none, stringT⟩,
         ⟨[(stringT, false), (stringT, false), (stringT, false), (stringT, false)], none, stringT⟩]
        [stringT, stringT, stringT, stringT] = some (0, stringT) ∧
    patternExpected (Value.str "w") [Value.str "x", Value.str "y", Value.str "z"] = 0 :=
  ⟨rfl, rfl⟩

/-- C9: assert runs collectErrors and raises a type-mismatch error
carrying the first recorded message when any error was recorded, and
otherwise returns the input value unchanged.  All other protocol
operations of the embedding (accepts, collectErrors, compareTypes,
acceptsType) are total functions — non-throwing — while the base node's
unimplemented placeholders throw, as the final two conjuncts record. -/
theorem c9_assert (t : Ty) (v : Value) :
    ((collectErrors t [] [] v).1 = true →
      ∃ e : Entry, (collectErrors t [] [] v).2 = [e] ∧ tyAssert t v = Except.error e.msg) ∧
    ((collectErrors t [] [] v).1 = false → tyAssert t v = Except.ok v) ∧
    (∃ m, baseAccepts v = Except.error m) ∧
    (∃ m, baseCompareWith t = Except.error m) := by
  obtain ⟨extra, h1, h2, h3⟩ := collectErrors_spec t [] [] v
  refine ⟨?_, ?_, ⟨_, rfl⟩, ⟨_, rfl⟩⟩
  · intro hflag
    rw [h1] at hflag
    have hacc : accepts t v = false := by simpa using hflag
    obtain ⟨e, he⟩ := h3 hacc
    refine ⟨e, by simp [h1, he], ?_⟩
    simp [tyAssert, makeError, h1, he]
  · intro hflag
    rw [h1] at hflag
    have hacc : accepts t v = true := by simpa using hflag
    have := h2 hacc
    subst this
    simp [tyAssert, makeError, h1]

/-- C9 witness: asserting the string input against VoidType records
ERR_EXPECT_VOID and raises it; asserting the undefined input returns it
unchanged. -/
theorem c9_assert_witness :
    (collectErrors voidT [] [] (Value.str "x")).1 = true ∧
    (∃ e : Entry, (collectErrors voidT [] [] (Value.str "x")).2 = [e] ∧
      tyAssert voidT (Value.str "x") = Except.error e.msg) ∧
    (collectErrors voidT [] [] Value.undef).1 = false ∧
    tyAssert voidT Value.undef = Except.ok Value.undef :=
  ⟨by decide, (c9_assert voidT (Value.str "x")).1 (by decide), by decide,
    (c9_assert voidT Value.undef).2.1 (by decide)⟩

/-- C4: within one attempt, once the generic slot has recorded type X,
observing a value whose type the recorded type does not already permit
(and which satisfies the bound, if any) sets `recorded` to exactly
`union(X, typeOf(input))` and the check succeeds, through both the
boolean and the diagnostic operation (the latter also leaving the
validation untouched); a value of type X re-checked through the slot
afterwards still passes with no further change; and across any step of
the boolean operation a recorded type only ever widens, never
narrows. -/
theorem c4_generic_widening (s : TypeParamState) (X : Ty) (input : Value)
    (hrec : s.recorded = some X)
    (hbound : ∀ b, s.bound = some b → accepts b input = true)
    (hnot : accepts X input = false) :
    flowIntoAccepts s input = (true, { s with recorded := some (unionT X (typeOf input)) }) ∧
    (∀ (validation : List Entry) (path : List String),
      flowIntoCollectErrors s validation path input =
        (false, validation, { s with recorded := some (unionT X (typeOf input)) })) ∧
    (∀ v : Value, accepts X v = true → (∀ b, s.bound = some b → accepts b v = true) →
      flowIntoAccepts { s with recorded := some (unionT X (typeOf input)) } v =
        (true, { s with recorded := some (unionT X (typeOf input)) })) ∧
    (∀ (t : TypeParamState) (w : Value) (Z : Ty), t.recorded = some Z →
      ∃ Z', ((flowIntoAccepts t w).2).recorded = some Z' ∧
        ∀ u : Value, accepts Z u = true → accepts Z' u = true) := by
  obtain ⟨sb, sr⟩ := s
  simp only at hrec
  subst hrec
  refine ⟨?_, ?_, ?_, ?_⟩
  · cases sb with
    | none => simp [flowIntoAccepts, hnot]
    | some b =>
        have hb := hbound b rfl
        simp [flowIntoAccepts, hb, hnot]
  · intro validation path
    cases sb with
    | none => simp [flowIntoCollectErrors, hnot]
    | some b =>
        have hb := hbound b rfl
        obtain ⟨extra, h1, h2, h3⟩ := collectErrors_spec b validation path input
        have hext := h2 hb
        subst hext
        simp [flowIntoCollectErrors, h1, hb, hnot]
  · intro v hXv hbv
    cases sb with
    | none => simp [flowIntoAccepts, accepts, hXv]
    | some b =>
        have hb := hbv b rfl
        simp [flowIntoAccepts, accepts, hb, hXv]
  · intro t w Z htrec
    obtain ⟨tb, tr⟩ := t
    simp only at htrec
    subst htrec
    cases tb with
    | none =>
        by_cases hz : accepts Z w = true
        · exact ⟨Z, by simp [flowIntoAccepts, hz], fun u hu => hu⟩
        · refine ⟨unionT Z (typeOf w), by simp [flowIntoAccepts, hz], fun u hu => ?_⟩
          simp [accepts, hu]
    | some b =>
        by_cases hbw : accepts b w = true
        · by_cases hz : accepts Z w = true
          · exact ⟨Z, by simp [flowIntoAccepts, hbw, hz], fun u hu => hu⟩
          · refine ⟨unionT Z (typeOf w), by simp [flowIntoAccepts, hbw, hz], fun u hu => ?_⟩
            simp [accepts, hu]
        · exact ⟨Z, by simp [flowIntoAccepts, hbw], fun u hu => hu⟩

/-- C4 witness: an unbounded slot that has recorded `string` and then
observes the number 2 widens its record to exactly
`union(string, number)` while succeeding. -/
theorem c4_generic_widening_witness :
    accepts stringT (Value.num 2) = false ∧
    flowIntoAccepts ⟨none, some stringT⟩ (Value.num 2) =
      (true, ⟨none, some (unionT stringT numberT)⟩) :=
  ⟨by decide,
    (c4_generic_widening ⟨none, some stringT⟩ stringT (Value.num 2) rfl
      (fun b h => nomatch h) (by decide)).1⟩

/-- The parameter loop of FunctionType.compareWith, characterized: when
the input declares at least as many parameters, the loop yields -1
exactly when some positional comparison is -1, else 1 when the flag is
raised or some positional comparison is 1, else 0. -/
theorem compareParamsLoop_spec (ps : List (Ty × Bool)) :
    ∀ (qs : List (Ty × Bool)) (isG : Bool), ps.length ≤ qs.length →
    compareParamsLoop isG ps qs =
      (if (ps.zip qs).any (fun pq => decide (compareTypes pq.1.1 pq.2.1 = Cmp.minusOne))
       then Cmp.minusOne
       else if isG || (ps.zip qs).any (fun pq => decide (compareTypes pq.1.1 pq.2.1 = Cmp.one))
       then Cmp.one
       else Cmp.zero) := by
  induction ps with
  | nil => intro qs isG _; cases isG <;> simp [compareParamsLoop]
  | cons p ps ih =>
      intro qs isG hlen
      cases qs with
      | nil => simp at hlen
      | cons q qs =>
          have hlen' : ps.length ≤ qs.length := by simpa using hlen
          rcases hc : compareTypes p.1 q.1 with _ | _ | _
          · simp [compareParamsLoop, hc]
          · have h1 : (decide (Cmp.zero = Cmp.minusOne)) = false := rfl
            have h2 : (decide (Cmp.zero = Cmp.one)) = false := rfl
            simp only [compareParamsLoop, hc, ih qs isG hlen', List.zip_cons_cons,
              List.any_cons, h1, h2, Bool.false_or]
          · have h1 : (decide (Cmp.one = Cmp.minusOne)) = false := rfl
            have h2 : (decide (Cmp.one = Cmp.one)) = true := rfl
            simp only [compareParamsLoop, hc, ih qs true hlen', List.zip_cons_cons,
              List.any_cons, h1, h2, Bool.false_or, Bool.true_or, if_true]
            split <;> simp

/-- The equation of the comparator at a pair of signatures, as the
source writes it: return types first, then the arity guard, then the
positional loop with the isGreater flag seeded from the return
comparison. -/
theorem compareTypes_functionT (ps qs : List (Ty × Bool)) (r r' : Option Ty) (ret qret : Ty) :
    compareTypes (functionT ps r ret) (functionT qs r' qret) =
      (if compareTypes ret qret = Cmp.minusOne then Cmp.minusOne
       else if qs.length < ps.length then Cmp.minusOne
       else compareParamsLoop (decide (compareTypes ret qret = Cmp.one)) ps qs) := by
  simp only [compareTypes]

/-- C5: FunctionType.compareWith yields -1 for any non-FunctionType
input; against another signature it compares return types first, any -1
there being fatal, yields -1 whenever the compared signature declares
fewer parameters, then compares parameters positionally, yielding -1 on
any positional -1, 1 when any comparison (return or positional) is 1
with no -1 anywhere, and 0 otherwise — stated as the full
characterization equation plus the claim's individual implications. -/
theorem c5_function_compare (ps : List (Ty × Bool)) (restp : Option Ty) (ret : Ty)
    (qs : List (Ty × Bool)) (qrestp : Option Ty) (qret : Ty) (u : Ty) :
    (u.isFunctionTy = false → compareTypes (functionT ps restp ret) u = Cmp.minusOne) ∧
    (compareTypes ret qret = Cmp.minusOne →
      compareTypes (functionT ps restp ret) (functionT qs qrestp qret) = Cmp.minusOne) ∧
    (qs.length < ps.length →
      compareTypes (functionT ps restp ret) (functionT qs qrestp qret) = Cmp.minusOne) ∧
    compareTypes (functionT ps restp ret) (functionT qs qrestp qret) =
      (if compareTypes ret qret = Cmp.minusOne then Cmp.minusOne
       else if qs.length < ps.length then Cmp.minusOne
       else if (ps.zip qs).any (fun pq => decide (compareTypes pq.1.1 pq.2.1 = Cmp.minusOne))
       then Cmp.minusOne
       else if decide (compareTypes ret qret = Cmp.one) ||
               (ps.zip qs).any (fun pq => decide (compareTypes pq.1.1 pq.2.1 = Cmp.one))
       then Cmp.one
       else Cmp.zero) := by
  have key : compareTypes (functionT ps restp ret) (functionT qs qrestp qret) =
      (if compareTypes ret qret = Cmp.minusOne then Cmp.minusOne
       else if qs.length < ps.length then Cmp.minusOne
       else if (ps.zip qs).any (fun pq => decide (compareTypes pq.1.1 pq.2.1 = Cmp.minusOne))
       then Cmp.minusOne
       else if decide (compareTypes ret qret = Cmp.one) ||
               (ps.zip qs).any (fun pq => decide (compareTypes pq.1.1 pq.2.1 = Cmp.one))
       then Cmp.one
       else Cmp.zero) := by
    rw [compareTypes_functionT]
    by_cases hret : compareTypes ret qret = Cmp.minusOne
    · rw [if_pos hret, if_pos hret]
    · rw [if_neg hret, if_neg hret]
      by_cases hlen : qs.length < ps.length
      · rw [if_pos hlen, if_pos hlen]
      · rw [if_neg hlen, if_neg hlen]
        have hle : ps.length ≤ qs.length := Nat.le_of_not_lt hlen
        rw [compareParamsLoop_spec ps qs _ hle]
  refine ⟨?_, ?_, ?_, key⟩
  · intro hu
    cases u <;> first
      | rfl
      | exact absurd hu (by simp [Ty.isFunctionTy])
  · intro hret
    rw [key]
    simp [hret]
  · intro hlen
    rw [key]
    split
    · rfl
    · simp [hlen]

/-- C5 witness: a non-function input and a shorter signature both rank
-1 against the one-string-parameter signature. -/
theorem c5_function_compare_witness :
    Ty.isFunctionTy voidT = false ∧
    compareTypes (functionT [(stringT, false)] none stringT) voidT = Cmp.minusOne ∧
    ([] : List (Ty × Bool)).length < [(stringT, false)].length ∧
    compareTypes (functionT [(stringT, false)] none stringT) (functionT [] none stringT) =
      Cmp.minusOne :=
  ⟨rfl,
    (c5_function_compare [(stringT, false)] none stringT [] none stringT voidT).1 rfl,
    by decide,
    (c5_function_compare [(stringT, false)] none stringT [] none stringT voidT).2.2.1
      (by decide)⟩

/-- The positional loop of acceptsParams, characterized by index: every
declared parameter accepts the argument at its position, the missing
value standing in past the end of the argument list. -/
theorem acceptsParamsLoop_spec : (ps : List (Ty × Bool)) → (args : List Value) →
    (acceptsParamsLoop ps args = true ↔
      ∀ i, (h : i < ps.length) →
        paramAccepts (ps.get ⟨i, h⟩) (args.getD i Value.undef) = true)
  | [], args => by simp [acceptsParamsLoop]
  | p :: ps, [] => by
      rw [acceptsParamsLoop, Bool.and_eq_true, acceptsParamsLoop_spec ps []]
      constructor
      · rintro ⟨h0, hrest⟩ i h
        cases i with
        | zero => simpa using h0
        | succ j =>
            have := hrest j (by simpa using h)
            simpa using this
      · intro h
        exact ⟨by simpa using h 0 (by simp),
          fun j hj => by simpa using h (j + 1) (by simpa using hj)⟩
  | p :: ps, a :: args => by
      rw [acceptsParamsLoop, Bool.and_eq_true, acceptsParamsLoop_spec ps args]
      constructor
      · rintro ⟨h0, hrest⟩ i h
        cases i with
        | zero => simpa using h0
        | succ j =>
            have := hrest j (by simpa using h)
            simpa using this
      · intro h
        exact ⟨by simpa using h 0 (by simp),
          fun j hj => by simpa using h (j + 1) (by simpa using hj)⟩

/-- The positional loop of invoke, characterized by index: a supplied
argument type checks via acceptsType, a missing trailing argument via
the parameter's accepts on the missing-value sentinel. -/
theorem invokeLoop_spec : (ps : List (Ty × Bool)) → (argTys : List Ty) →
    (invokeLoop ps argTys = true ↔
      ∀ i, (h : i < ps.length) →
        (match argTys.get? i with
         | some a => paramAcceptsType (ps.get ⟨i, h⟩) a
         | none => paramAccepts (ps.get ⟨i, h⟩) Value.undef) = true)
  | [], argTys => by simp [invokeLoop]
  | p :: ps, [] => by
      rw [invokeLoop, Bool.and_eq_true, invokeLoop_spec ps []]
      constructor
      · rintro ⟨h0, hrest⟩ i h
        cases i with
        | zero => simpa using h0
        | succ j =>
            have := hrest j (by simpa using h)
            simpa using this
      · intro h
        exact ⟨by simpa using h 0 (by simp),
          fun j hj => by simpa using h (j + 1) (by simpa using hj)⟩
  | p :: ps, a :: argTys => by
      rw [invokeLoop, Bool.and_eq_true, invokeLoop_spec ps argTys]
      constructor
      · rintro ⟨h0, hrest⟩ i h
        cases i with
        | zero => simpa using h0
        | succ j =>
            have := hrest j (by simpa using h)
            simpa using this
      · intro h
        exact ⟨by simpa using h 0 (by simp),
          fun j hj => by simpa using h (j + 1) (by simpa using hj)⟩

/-- The excess-argument guard shared by acceptsParams and invoke,
characterized: it holds exactly when, should a rest parameter exist,
every element beyond the declared parameters passes its check.  With no
rest parameter the guard is vacuously true — excess arguments are
ignored. -/
theorem restGuard_spec {α : Type} (restp : Option Ty) (xs : List α) (n : Nat)
    (f : Ty → α → Bool) :
    (restCheck restp f xs n = true ↔
      ∀ r, restp = some r → ∀ a ∈ xs.drop n, f r a = true) := by
  by_cases h : xs.length > n
  · rw [restCheck.eq_def, if_pos h]
    cases restp with
    | none => simp
    | some r => simp [List.all_eq_true]
  · rw [restCheck.eq_def, if_neg h]
    have hdrop : xs.drop n = [] := List.drop_eq_nil_of_le (by omega)
    simp [hdrop]

/-- C1 amended: a signature with no rest parameter does not reject
excess positional arguments — acceptsParams accepts exactly when every
declared parameter is satisfied (absent trailing ones checked against
the missing-value sentinel), excess arguments being checked against the
rest's element type when a rest parameter exists and ignored otherwise;
invoke mirrors this at the type level, returning the declared return
type on a match and the no-match sentinel otherwise. -/
theorem c1_amended (ps : List (Ty × Bool)) (restp : Option Ty) (ret : Ty)
    (args : List Value) (argTys : List Ty) :
    (acceptsParams ps restp args = true ↔
      ((∀ i, (h : i < ps.length) →
          paramAccepts (ps.get ⟨i, h⟩) (args.getD i Value.undef) = true) ∧
       (∀ r, restp = some r → ∀ a ∈ args.drop ps.length, accepts r a = true))) ∧
    (invokeLoop ps argTys = true ↔
      ∀ i, (h : i < ps.length) →
        (match argTys.get? i with
         | some a => paramAcceptsType (ps.get ⟨i, h⟩) a
         | none => paramAccepts (ps.get ⟨i, h⟩) Value.undef) = true) ∧
    ((invokeLoop ps argTys = true ∧
      (∀ r, restp = some r → ∀ a ∈ argTys.drop ps.length, acceptsType r a = true)) →
      invoke ps restp ret argTys = ret) ∧
    ((invokeLoop ps argTys = false ∨
      ¬(∀ r, restp = some r → ∀ a ∈ argTys.drop ps.length, acceptsType r a = true)) →
      invoke ps restp ret argTys = emptyT) := by
  refine ⟨?_, invokeLoop_spec ps argTys, ?_, ?_⟩
  · rw [acceptsParams, Bool.and_eq_true, acceptsParamsLoop_spec ps args,
      restGuard_spec restp args ps.length accepts]
  · rintro ⟨hloop, hrest⟩
    have hguard := (restGuard_spec restp argTys ps.length acceptsType).mpr hrest
    rw [invoke, hloop, hguard]
    rfl
  · intro h
    rw [invoke]
    rcases h with h | h
    · rw [h]
      rfl
    · have hguard : restCheck restp acceptsType argTys ps.length = false :=
        Bool.eq_false_iff.mpr fun hg =>
          h ((restGuard_spec restp argTys ps.length acceptsType).mp hg)
      rw [hguard, Bool.and_false]
      rfl

/-- C1 amended witness: the one-string-parameter signature with no rest
accepts the two-argument call, and its invoke on two argument types
matches and yields the return type. -/
theorem c1_amended_witness :
    acceptsParams [(stringT, false)] none [Value.str "x", Value.num 1] = true ∧
    invoke [(stringT, false)] none stringT [stringT, numberT] = stringT := by
  constructor
  · exact (c1_amended [(stringT, false)] none stringT [Value.str "x", Value.num 1]
        [stringT, numberT]).1.mpr
      ⟨by decide, fun r h => nomatch h⟩
  · exact (c1_amended [(stringT, false)] none stringT [Value.str "x", Value.num 1]
        [stringT, numberT]).2.2.1
      ⟨by decide, fun r h => nomatch h⟩

end FlowRuntime
